import Mathlib

/-!
Shallow embedding of the request-dispatch core of the video-analysis server
(remote-server.js, mcp-server.js and the legacy express server bundled with
them), together with theorems about the embedded operations.

Conventions:
* the file system is a partial map from paths to file sizes
  (`existsSync p = (fs p).isSome`, `statSync(p).size = (fs p).get`);
* the generative-AI provider is a function from a prompt to either an
  analysis text or the message of the exception it threw;
* JavaScript truthiness of optional strings (`undefined`/`null`/`""` are
  falsy) is made explicit through `jsTruthy`;
* a JS function that can throw is embedded as `Except String _`, the
  `String` being the thrown error message.
-/

/-- A file system: maps a path to the size of the file there, `none` when no
file exists at that path. -/
def FS : Type := String → Option Nat

/-- JavaScript truthiness of an optional string: `undefined`, `null` and the
empty string are falsy, every other string is truthy. -/
def jsTruthy : Option String → Bool
  | none => false
  | some s => !(s == "")

/-- JavaScript `a || b` over optional strings (used for
`req.headers['x-api-key'] || req.query.api_key`). -/
def jsOr (a b : Option String) : Option String :=
  if jsTruthy a then a else b

/-- Split a list of characters on a separator character (the char-level
analogue of `String.splitOn` for a one-character separator). -/
def splitOnChar (c : Char) : List Char → List (List Char)
  | [] => [[]]
  | x :: xs =>
    let r := splitOnChar c xs
    if x = c then [] :: r
    else
      match r with
      | [] => [[x]]
      | h :: t => (x :: h) :: t

/-- ASCII lower-casing of a string, character by character (what
`toLowerCase()` does on the extensions at play). -/
def toLowerStr (s : String) : String :=
  String.mk (s.data.map Char.toLower)

/-- Basename of a POSIX path: the part after the last `/`. -/
def basenameOf (p : String) : List Char :=
  (splitOnChar '/' p.data).getLastD []

/-- Node's `path.extname`: the suffix of the basename from its last dot,
empty when the basename has no dot or only a leading dot (`.bashrc`), and
empty for the special name `..`. -/
def extname (p : String) : String :=
  let b := basenameOf p
  if b = ['.', '.'] then ""
  else
    match splitOnChar '.' b with
    | [] => ""
    | [_] => ""
    | x :: rest =>
      if x = [] ∧ rest.length = 1 then ""
      else String.mk ('.' :: rest.getLastD [])

/-- The fixed extension-to-MIME table `SUPPORTED_FORMATS` of
remote-server.js. -/
def SUPPORTED_FORMATS : List (String × String) :=
  [(".mp4", "video/mp4"),
   (".webm", "video/webm"),
   (".mov", "video/quicktime"),
   (".avi", "video/x-msvideo"),
   (".mkv", "video/x-matroska")]

/-- The constant `MAX_FILE_SIZE = 100 * 1024 * 1024` (100MB). -/
def MAX_FILE_SIZE : Nat := 100 * 1024 * 1024

/-- The three errors `validateVideoFile` can throw, with the path where
needed to rebuild the exact message. -/
inductive VError : Type
  | notFound (path : String)
  | unsupportedFormat
  | tooLarge
deriving DecidableEq, Repr

/-- The message of the `Error` thrown by `validateVideoFile`. -/
def vErrorMessage : VError → String
  | .notFound p => "File not found: " ++ p
  | .unsupportedFormat =>
      "Unsupported file format. Supported formats: .mp4, .webm, .mov, .avi, .mkv"
  | .tooLarge => "File too large. Maximum size: 100MB"

/-- The `validateVideoFile` helper of remote-server.js: existence check, then
extension lookup in `SUPPORTED_FORMATS` (lower-cased extension), then size
ceiling; returns the MIME type on success. -/
def validateVideoFile (fs : FS) (filePath : String) : Except VError String :=
  match fs filePath with
  | none => .error (.notFound filePath)
  | some size =>
    match SUPPORTED_FORMATS.lookup (toLowerStr (extname filePath)) with
    | none => .error .unsupportedFormat
    | some mime =>
      if size > MAX_FILE_SIZE then .error .tooLarge
      else .ok mime

/-- The MIME switch inside mcp-server.js's `analyzeVideo` (and the legacy
express server's): only `.mp4`, `.webm` and `.mov` are mapped; every other
extension falls through to the `video/mp4` default. -/
def mimeFromExtMcp (ext : String) : String :=
  if ext = ".mp4" then "video/mp4"
  else if ext = ".webm" then "video/webm"
  else if ext = ".mov" then "video/quicktime"
  else "video/mp4"

/-- One entry of the `results` array: the prompt and the provider's text. -/
structure PromptResult : Type where
  prompt : String
  analysis : String
deriving DecidableEq, Repr

/-- The value returned by `analyzeVideo`: a JS object whose `results` and
`error` fields may each be present or absent. -/
structure AnalysisResult : Type where
  success : Bool
  results : Option (List PromptResult)
  error : Option String
deriving DecidableEq, Repr

/-- The provider: one call per prompt, returning the analysis text or
throwing (the thrown message). -/
def Provider : Type := String → Except String String

/-- The five default prompts shared by remote-server.js and
mcp-server.js. -/
def defaultPrompts : List String :=
  ["Describe the video in detail, including what\x27s happening and the main subject matter.",
   "What is the quality of the video recording and audio?",
   "Are there any areas where the video could be improved?",
   "Analyze the pacing and content organization of the video.",
   "How well does this video meet typical user expectations for this type of content?"]

/-- The five default prompts of the legacy express server bundled after
remote-server.js (timeline/screenshot oriented). -/
def defaultPromptsLegacy : List String :=
  ["Analyze this video and provide a detailed timeline of key moments. For each important moment, scene change, or significant event, specify the approximate timestamp in seconds. Include: 1) A description of what happens at each moment, 2) The specific timestamp (in seconds) when it occurs, 3) Why this moment is significant or visually interesting. Format your response with clear timestamps like \x27At 0s:\x27, \x27At 15s:\x27, etc.",
   "Identify 5-10 of the most visually interesting or important frames in this video that would make good screenshots. For each frame, provide: 1) The exact timestamp in seconds, 2) What makes this frame significant, 3) What visual elements are present. Format timestamps clearly as numbers in seconds.",
   "Analyze the video\x27s structure and identify timestamps for: 1) The opening/introduction, 2) Key transitions between topics or scenes, 3) Important moments showing the main subject matter, 4) The conclusion. Provide specific timestamps in seconds for each.",
   "Review this video and suggest optimal timestamps (in seconds) where screenshots should be captured to create a comprehensive visual summary. Aim for 6-12 timestamps that together tell the story of the video.",
   "Identify any moments in the video that contain: text overlays, important visual information, key demonstrations, or significant events. For each, provide the timestamp in seconds and describe what should be captured in a screenshot."]

/-- The selection `const prompts = analysisPrompt ? [analysisPrompt] : defaults;` -- a
truthy (non-empty) caller prompt yields the singleton list, anything else
yields the defaults. -/
def selectPromptsWith (defaults : List String) (analysisPrompt : Option String) :
    List String :=
  if jsTruthy analysisPrompt then [analysisPrompt.getD ""] else defaults

/-- Prompt selection with the shared five-prompt default set. -/
def selectPrompts (analysisPrompt : Option String) : List String :=
  selectPromptsWith defaultPrompts analysisPrompt

/-- The provider-call loop: issues one call per prompt in order, pushing
`{prompt, analysis}` entries; the first thrown call aborts the loop. The
first component is the trace of prompts actually sent to the provider, the
second the loop outcome (the collected entries, or the thrown message). -/
def runPromptsTr (provider : Provider) : List String →
    List String × Except String (List PromptResult)
  | [] => ([], .ok [])
  | p :: rest =>
    match provider p with
    | .error e => ([p], .error e)
    | .ok text =>
      let (calls, out) := runPromptsTr provider rest
      (p :: calls, out.map (fun rs => ⟨p, text⟩ :: rs))

namespace RemoteServer

/-- remote-server.js `analyzeVideo`, instrumented with the trace of provider
calls. The missing-key check is outside the try/catch and therefore throws
(`Except.error`); validation failures and provider failures are caught and
converted into a tagged `AnalysisResult`. `fileToGenerativePart` between
validation and the loop always succeeds because validation has just
established the file exists. -/
def analyzeVideoTr (googleApiKey : Option String) (fs : FS) (provider : Provider)
    (videoPath : String) (analysisPrompt : Option String) :
    List String × Except String AnalysisResult :=
  if !jsTruthy googleApiKey then
    ([], .error "Google API key is required for video analysis")
  else
    match validateVideoFile fs videoPath with
    | .error e => ([], .ok ⟨false, none, some (vErrorMessage e)⟩)
    | .ok _mime =>
      let (calls, out) := runPromptsTr provider (selectPrompts analysisPrompt)
      match out with
      | .error msg => (calls, .ok ⟨false, none, some msg⟩)
      | .ok rs => (calls, .ok ⟨true, some rs, none⟩)

/-- remote-server.js `analyzeVideo`: the returned value (or thrown message),
without the call trace. -/
def analyzeVideo (googleApiKey : Option String) (fs : FS) (provider : Provider)
    (videoPath : String) (analysisPrompt : Option String) :
    Except String AnalysisResult :=
  (analyzeVideoTr googleApiKey fs provider videoPath analysisPrompt).2

end RemoteServer

namespace McpServer

/-- The message of `readFileSync` throwing on a missing file (caught by the
catch-all of mcp-server.js's `analyzeVideo`). -/
def enoentMessage (p : String) : String :=
  "ENOENT: no such file or directory, open \x27" ++ p ++ "\x27"

/-- mcp-server.js `analyzeVideo`: `requireGoogleApiKey` throws before the
try block when no key is configured; inside the try block the extension is
mapped through the defaulting MIME switch (never failing), the file is read
(throwing ENOENT into the catch when absent), and the provider loop runs on
the same prompt selection as the remote server. -/
def analyzeVideo (googleApiKey : Option String) (fs : FS) (provider : Provider)
    (videoPath : String) (analysisPrompt : Option String) :
    Except String AnalysisResult :=
  if !jsTruthy googleApiKey then
    .error "Google API key is required for video analysis"
  else
    let _mime := mimeFromExtMcp (toLowerStr (extname videoPath))
    match fs videoPath with
    | none => .ok ⟨false, none, some (enoentMessage videoPath)⟩
    | some _ =>
      match (runPromptsTr provider (selectPrompts analysisPrompt)).2 with
      | .error msg => .ok ⟨false, none, some msg⟩
      | .ok rs => .ok ⟨true, some rs, none⟩

end McpServer

namespace LegacyServer

/-- The legacy express server's `analyzeVideo`: no key check at all (the
key has a hardcoded fallback), the defaulting MIME switch, the legacy
default prompt set; the catch-all makes it total. -/
def analyzeVideo (fs : FS) (provider : Provider) (videoPath : String)
    (analysisPrompt : Option String) : AnalysisResult :=
  let _mime := mimeFromExtMcp (toLowerStr (extname videoPath))
  match fs videoPath with
  | none => ⟨false, none, some (McpServer.enoentMessage videoPath)⟩
  | some _ =>
    match (runPromptsTr provider (selectPromptsWith defaultPromptsLegacy analysisPrompt)).2 with
    | .error msg => ⟨false, none, some msg⟩
    | .ok rs => ⟨true, some rs, none⟩

end LegacyServer

/-! Authentication (remote-server.js). -/

/-- The configuration the authentication code reads: `ENABLE_AUTH` and
`API_KEY` (`process.env.API_KEY || null`, so the empty string behaves like
an unset key through `jsTruthy`). -/
structure AuthConfig : Type where
  enableAuth : Bool
  apiKey : Option String
deriving DecidableEq, Repr

/-- The credential-bearing parts of an HTTP request: the `x-api-key`
header, the `api_key` query parameter, and the bearer token extracted from
the `Authorization` header (`none` when the header is absent or has no
second word). -/
structure HttpAuthRequest : Type where
  headerApiKey : Option String
  queryApiKey : Option String
  bearerToken : Option String
deriving DecidableEq, Repr

namespace RemoteServer

/-- The `authenticate` express middleware: skip when auth is disabled; when
an API key is configured, grant on a matching header-or-query key;
otherwise try JWT verification; otherwise fall back to granting when no API
key is configured at all; otherwise 401. `verify` embeds
`jwt.verify(token, JWT_SECRET)` succeeding. -/
def authenticate (cfg : AuthConfig) (verify : String → Bool)
    (r : HttpAuthRequest) : Bool :=
  if cfg.enableAuth = false then true
  else if jsTruthy cfg.apiKey ∧ jsOr r.headerApiKey r.queryApiKey = cfg.apiKey then
    true
  else
    let tokenOk := match r.bearerToken with
      | some t => jsTruthy (some t) && verify t
      | none => false
    if tokenOk then true
    else if jsTruthy cfg.apiKey then false
    else true

/-- The WebSocket connection check (`wss.on('connection')`): with auth
enabled, grant on a matching `api_key` query parameter; **else if** a token
parameter is present, grant only when it verifies; **else if** no API key
is configured, grant; otherwise close the socket as unauthenticated. -/
def wsAuthenticate (cfg : AuthConfig) (verify : String → Bool)
    (apiKeyParam tokenParam : Option String) : Bool :=
  if cfg.enableAuth = false then true
  else if jsTruthy cfg.apiKey ∧ apiKeyParam = cfg.apiKey then true
  else if jsTruthy tokenParam then
    match tokenParam with
    | some t => verify t
    | none => false
  else if !jsTruthy cfg.apiKey then true
  else false

/-- An entry of the advertised tool list: name, description, and the single
required argument of its input schema. -/
structure ToolSpec : Type where
  name : String
  description : String
  requiredArg : String
deriving DecidableEq, Repr

/-- The tool list served by `POST /api/mcp/tools`, `POST /mcp`
(`tools/list`) and the WebSocket `list_tools` reply. -/
def toolSpecs : List ToolSpec :=
  [⟨"analyze_video_file", "Analyze a video file using Google\x27s Gemini AI", "file_path"⟩,
   ⟨"analyze_video_url", "Download and analyze a video from URL", "video_url"⟩]

/-- The route `POST /api/mcp/tools` (and the `tools/list` branch of `POST /mcp`): the
route runs the `authenticate` middleware first, so the request either gets
the tool list or the middleware's 401 body. -/
def listToolsEndpoint (cfg : AuthConfig) (verify : String → Bool)
    (r : HttpAuthRequest) : Except String (List ToolSpec) :=
  if authenticate cfg verify r then .ok toolSpecs
  else .error "Authentication required"

end RemoteServer

/-! The URL-analysis handlers and their temp-file lifecycle. -/

/-- The outcome of `downloadFile(url, tempFilePath)`:
* `ok size` — the fetch succeeded and the stream wrote `size` bytes;
* `httpFail statusText` — `response.ok` was false, so the function threw
  before `createWriteStream` ever created the file;
* `streamFail msg` — the write stream was created (so the file exists) and
  the pipeline then failed with `msg`. -/
inductive DownloadOutcome : Type
  | ok (size : Nat)
  | httpFail (statusText : String)
  | streamFail (msg : String)
deriving DecidableEq, Repr

/-- The temp path `path.join(TEMP_DIR, uuidv4() + '.mp4')` for a given
generated identifier. -/
def mkTempPath (uuid : String) : String :=
  "/tmp/video-analysis-uploads/" ++ uuid ++ ".mp4"

/-- The file system after a successful download of `size` bytes into the
temp path. -/
def fsWithTemp (fs : FS) (tempPath : String) (size : Nat) : FS :=
  fun p => if p = tempPath then some size else fs p

namespace RemoteServer

/-- The URL-analysis pattern shared by `POST /api/analyze/url`, the
`analyze_video_url` branches of `POST /mcp`, `POST /api/mcp/call` and the
WebSocket `call_tool` handler: allocate the temp path, download, analyze,
then delete the temp file — deletion guarded by `existsSync` on the
success path and repeated in the catch block on every throwing path.
Returns the handler outcome (result, or thrown message) together with
whether the temp file still exists on disk afterwards. -/
def analyzeUrlWithCleanup (googleApiKey : Option String) (fs : FS)
    (provider : Provider) (dl : DownloadOutcome) (uuid : String)
    (analysisPrompt : Option String) : Except String AnalysisResult × Bool :=
  let tempPath := mkTempPath uuid
  match dl with
  | .httpFail st =>
    -- throw before the file is created; the catch block's existsSync
    -- guard finds nothing to delete
    (.error ("Failed to download file: " ++ st), false)
  | .streamFail msg =>
    -- the file was created; the catch block deletes it
    (.error msg, false)
  | .ok size =>
    match analyzeVideo googleApiKey (fsWithTemp fs tempPath size) provider
        tempPath analysisPrompt with
    | .error e => (.error e, false)  -- thrown (missing key); catch deletes
    | .ok r => (.ok r, false)        -- success path deletes before replying

end RemoteServer

namespace LegacyServer

/-- The legacy express server's `POST /analyze_video_url` handler: the
whole body sits in one try block whose only cleanup is the
`fs.unlinkSync(tempFilePath)` after a completed analysis; the catch block
answers 500 without deleting anything. Returns the handler outcome and
whether the temp file still exists on disk afterwards. -/
def analyzeUrlHandler (fs : FS) (provider : Provider) (dl : DownloadOutcome)
    (uuid : String) (analysisPrompt : Option String) :
    Except String AnalysisResult × Bool :=
  let tempPath := mkTempPath uuid
  match dl with
  | .httpFail st =>
    -- throw before the file is created: nothing on disk
    (.error ("Failed to download file: " ++ st), false)
  | .streamFail msg =>
    -- the file was created, the pipeline threw, and the catch block does
    -- not delete it: the temp file remains on disk
    (.error msg, true)
  | .ok size =>
    let r := analyzeVideo (fsWithTemp fs tempPath size) provider tempPath
        analysisPrompt
    -- analyzeVideo catches everything, so unlinkSync always runs here
    (.ok r, false)

end LegacyServer

/-! The WebSocket message handler (`ws.on('message')` in remote-server.js). -/

/-- An inbound WebSocket message after the `JSON.parse` attempt:
`malformed` when parsing threw (carrying the parse error's message),
otherwise the parsed `type` with the fields the handler destructures.
`unknownType` covers every `type` outside the three known ones. -/
inductive WsIn : Type
  | malformed (parseError : String)
  | listTools
  | callTool (id : Option Nat) (tool : String) (filePath : Option String)
      (videoUrl : Option String) (analysisPrompt : Option String)
  | ping
  | unknownType (t : String)
deriving DecidableEq, Repr

/-- An outbound WebSocket message: the `tools` list, a `tool_result` with
the request's `id`, an `error` (with the `id` when one was destructured
from a `call_tool` request), or a `pong`. -/
inductive WsOut : Type
  | tools (ts : List RemoteServer.ToolSpec)
  | toolResult (id : Option Nat) (content : AnalysisResult)
  | errorMsg (id : Option Nat) (error : String)
  | pong (timestamp : Nat)
deriving DecidableEq, Repr

namespace RemoteServer

/-- The `ws.on('message')` handler as the list of messages it sends for one
inbound message. The outer try/catch turns a parse failure into an `error`
send; `call_tool` has its own try/catch whose `error` send carries the
request id; unknown tools throw into that inner catch; the URL tool runs
the shared download/analyze/cleanup pattern. -/
def handleWsMessage (googleApiKey : Option String) (fs : FS)
    (provider : Provider) (dl : DownloadOutcome) (uuid : String) (now : Nat)
    (m : WsIn) : List WsOut :=
  match m with
  | .malformed parseError => [.errorMsg none parseError]
  | .listTools => [.tools toolSpecs]
  | .ping => [.pong now]
  | .unknownType t => [.errorMsg none ("Unknown message type: " ++ t)]
  | .callTool id tool filePath _videoUrl analysisPrompt =>
    if tool = "analyze_video_file" then
      match analyzeVideo googleApiKey fs provider (filePath.getD "undefined")
          analysisPrompt with
      | .error e => [.errorMsg id e]
      | .ok r => [.toolResult id r]
    else if tool = "analyze_video_url" then
      match (analyzeUrlWithCleanup googleApiKey fs provider dl uuid
          analysisPrompt).1 with
      | .error e => [.errorMsg id e]
      | .ok r => [.toolResult id r]
    else
      [.errorMsg id ("Unknown tool: " ++ tool)]

end RemoteServer

/-- The id carried by an outbound WebSocket message, when it has an id
field. -/
def wsOutId : WsOut → Option Nat
  | .toolResult id _ => id
  | .errorMsg id _ => id
  | .tools _ => none
  | .pong _ => none

/-! Concrete inputs used by witnesses and counterexamples. -/

/-- A file system with no files. -/
def emptyFs : FS := fun _ => none

/-- A sample file system: a small mp4, an oversized mp4, a text file and an
avi file. -/
def sampleFs : FS := fun p =>
  if p = "/videos/clip.mp4" then some 1024
  else if p = "/videos/huge.mp4" then some (200 * 1024 * 1024)
  else if p = "/videos/notes.txt" then some 10
  else if p = "/videos/clip.avi" then some 1024
  else none

/-- A provider that answers every prompt. -/
def sampleProvider : Provider := fun q => .ok ("analysis of " ++ q)

/-- A provider that throws on the third default prompt and answers every
other prompt. -/
def failingProvider : Provider := fun q =>
  if q = "Are there any areas where the video could be improved?" then
    .error "quota exceeded"
  else .ok ("analysis of " ++ q)

/-! Helper lemmas about the provider-call loop and prompt selection. -/

/-- When the provider answers every prompt of the list, the loop calls each
prompt in order and collects one entry per prompt, in order. -/
theorem runPromptsTr_all_ok (provider : Provider) (texts : String → String)
    (l : List String) (h : ∀ q ∈ l, provider q = .ok (texts q)) :
    runPromptsTr provider l = (l, .ok (l.map fun q => ⟨q, texts q⟩)) := by
  induction l with
  | nil => simp [runPromptsTr]
  | cons q qs ih =>
    have hq := h q (by simp)
    have hrest := ih (fun x hx => h x (by simp [hx]))
    simp [runPromptsTr, hq, hrest, Except.map]

/-- When the loop completes, it produced exactly one entry per prompt. -/
theorem runPromptsTr_ok_length (provider : Provider) (l : List String)
    (rs : List PromptResult) (h : (runPromptsTr provider l).2 = .ok rs) :
    rs.length = l.length := by
  induction l generalizing rs with
  | nil =>
    simp [runPromptsTr] at h
    simp [← h]
  | cons q qs ih =>
    rcases hq : provider q with e | text
    · simp [runPromptsTr, hq] at h
    · rcases hrest : runPromptsTr provider qs with ⟨calls, out⟩
      rcases out with e | rs
      · simp [runPromptsTr, hq, hrest, Except.map] at h
      · simp [runPromptsTr, hq, hrest, Except.map] at h
        have := ih rs (by rw [hrest])
        simp [← h, this]

/-- When the provider answers every prompt of `front` and throws on `pk`,
the loop stops at `pk`: the prompts of `rest` are never sent, nothing is
collected, and the thrown message is the loop's outcome. -/
theorem runPromptsTr_short_circuit (provider : Provider) (front : List String)
    (pk : String) (rest : List String) (e : String)
    (hfront : ∀ q ∈ front, ∃ t, provider q = .ok t)
    (hfail : provider pk = .error e) :
    runPromptsTr provider (front ++ pk :: rest) = (front ++ [pk], .error e) := by
  induction front with
  | nil => simp [runPromptsTr, hfail]
  | cons q qs ih =>
    obtain ⟨t, ht⟩ := hfront q (by simp)
    have hrest := ih (fun x hx => hfront x (by simp [hx]))
    simp [runPromptsTr, ht, hrest, Except.map]

/-- The selected prompt list is never empty: a truthy caller prompt gives a
singleton, anything else the five defaults. -/
theorem selectPrompts_ne_nil (ap : Option String) : selectPrompts ap ≠ [] := by
  rcases ap with _ | s
  · simp [selectPrompts, selectPromptsWith, jsTruthy, defaultPrompts]
  · by_cases hs : s = ""
    · simp [selectPrompts, selectPromptsWith, jsTruthy, hs, defaultPrompts]
    · simp [selectPrompts, selectPromptsWith, jsTruthy, hs]

/-! Claim C1. -/

/-- C1: in the main remote server every URL-analysis route deletes the
request's temp file on every exit path (download failure before or after
file creation, thrown analysis, tagged result); but the legacy server's
`POST /analyze_video_url` leaves the temp file on disk when the download
stream fails after the file was created, because its catch block performs
no cleanup. The claim's universal cleanup property therefore fails on the
legacy route. -/
theorem claimC1_cleanup :
    (∀ (googleApiKey : Option String) (fs : FS) (provider : Provider)
       (dl : DownloadOutcome) (uuid : String) (ap : Option String),
       (RemoteServer.analyzeUrlWithCleanup googleApiKey fs provider dl uuid ap).2
         = false)
    ∧ (LegacyServer.analyzeUrlHandler emptyFs sampleProvider
        (.streamFail "socket hang up") "9b2f8c3a-1d7e-4b22-8f3d-2f6f1c0a55e1"
        none).2 = true := by
  constructor
  · intro googleApiKey fs provider dl uuid ap
    rcases dl with size | st | msg
    · rcases h : RemoteServer.analyzeVideo googleApiKey
        (fsWithTemp fs (mkTempPath uuid) size) provider (mkTempPath uuid) ap with
        e | r <;>
      simp [RemoteServer.analyzeUrlWithCleanup, h]
    · simp [RemoteServer.analyzeUrlWithCleanup]
    · simp [RemoteServer.analyzeUrlWithCleanup]
  · rfl

/-! Claim C10. -/

/-- C10: an empty-string analysis prompt is falsy in the selection
`analysisPrompt ? [analysisPrompt] : defaultPrompts`, so it is treated as
absent: the five-prompt default set is used, identically to supplying no
prompt at all, in both the remote server's and the protocol server's
`analyzeVideo`. -/
theorem claimC10_empty_prompt (googleApiKey : Option String) (fs : FS)
    (provider : Provider) (p : String) :
    selectPrompts (some "") = defaultPrompts
    ∧ defaultPrompts.length = 5
    ∧ RemoteServer.analyzeVideoTr googleApiKey fs provider p (some "")
        = RemoteServer.analyzeVideoTr googleApiKey fs provider p none
    ∧ McpServer.analyzeVideo googleApiKey fs provider p (some "")
        = McpServer.analyzeVideo googleApiKey fs provider p none :=
  ⟨rfl, rfl, rfl, rfl⟩

/-! Claim C3. -/

/-- C3 as stated is false: the protocol server's `analyzeVideo` performs no
extension validation at all — an existing `.txt` file sails through with
the `video/mp4` default and the analysis proceeds, and `.avi` is mapped to
`video/mp4`, not to the table's `video/x-msvideo`. -/
theorem claimC3_counterexample :
    McpServer.analyzeVideo (some "key") sampleFs sampleProvider
      "/videos/notes.txt" (some "p")
      = .ok ⟨true, some [⟨"p", "analysis of p"⟩], none⟩
    ∧ mimeFromExtMcp (toLowerStr (extname "/videos/clip.avi")) = "video/mp4" :=
  ⟨rfl, rfl⟩

/-- C3 amended: the remote server's `validateVideoFile` does return exactly
the table MIME type for each of the five supported extensions and fails
with the unsupported-format error for any other extension (on an existing
file within the size ceiling); the protocol server's MIME switch instead
maps only `.mp4`/`.webm`/`.mov` and defaults every other extension,
including `.avi` and `.mkv`, to `video/mp4` without failing. -/
theorem claimC3_amended (fs : FS) (p : String) (sz : Nat)
    (hex : fs p = some sz) (hsz : sz ≤ MAX_FILE_SIZE) :
    (∀ ext mime, (ext, mime) ∈ SUPPORTED_FORMATS →
      toLowerStr (extname p) = ext → validateVideoFile fs p = .ok mime)
    ∧ (SUPPORTED_FORMATS.lookup (toLowerStr (extname p)) = none →
        validateVideoFile fs p = .error .unsupportedFormat)
    ∧ (mimeFromExtMcp ".mp4" = "video/mp4"
       ∧ mimeFromExtMcp ".webm" = "video/webm"
       ∧ mimeFromExtMcp ".mov" = "video/quicktime"
       ∧ ∀ ext, ext ∉ [".mp4", ".webm", ".mov"] → mimeFromExtMcp ext = "video/mp4") := by
  have hnotbig : ¬ sz > MAX_FILE_SIZE := by omega
  refine ⟨?_, ?_, rfl, rfl, rfl, ?_⟩
  · intro ext mime hmem hext
    simp only [SUPPORTED_FORMATS, List.mem_cons, List.not_mem_nil, or_false,
      Prod.mk.injEq] at hmem
    rcases hmem with ⟨h1, h2⟩ | ⟨h1, h2⟩ | ⟨h1, h2⟩ | ⟨h1, h2⟩ | ⟨h1, h2⟩ <;>
      subst h1 <;> subst h2 <;>
      simp [validateVideoFile, hex, hext, SUPPORTED_FORMATS, List.lookup, hnotbig]
  · intro hlook
    simp [validateVideoFile, hex, hlook]
  · intro ext hext
    simp only [List.mem_cons, List.not_mem_nil, or_false, not_or] at hext
    obtain ⟨h1, h2, h3⟩ := hext
    simp [mimeFromExtMcp, h1, h2, h3]

/-- Witness for C3's amended theorem: the sample file system's small mp4
file validates to `video/mp4`, its text file is rejected as unsupported,
and `.mkv` is defaulted to `video/mp4` by the protocol server's switch. -/
theorem claimC3_witness :
    validateVideoFile sampleFs "/videos/clip.mp4" = .ok "video/mp4"
    ∧ validateVideoFile sampleFs "/videos/notes.txt" = .error .unsupportedFormat
    ∧ mimeFromExtMcp ".mkv" = "video/mp4" := by
  have h1 := claimC3_amended sampleFs "/videos/clip.mp4" 1024 rfl (by decide)
  have h2 := claimC3_amended sampleFs "/videos/notes.txt" 10 rfl (by decide)
  exact ⟨h1.1 ".mp4" "video/mp4" (by decide) rfl, h2.2.1 rfl,
    h2.2.2.2.2.2 ".mkv" (by decide)⟩

/-! Claim C8. -/

/-- C8: for an existing file whose (lower-cased) extension is in the
supported table, validation fails with the too-large error exactly when the
size strictly exceeds `MAX_FILE_SIZE`; at or under the ceiling it passes,
returning the MIME type. -/
theorem claimC8_size_ceiling (fs : FS) (p : String) (sz : Nat) (mime : String)
    (hex : fs p = some sz)
    (hfmt : SUPPORTED_FORMATS.lookup (toLowerStr (extname p)) = some mime) :
    (validateVideoFile fs p = .error .tooLarge ↔ MAX_FILE_SIZE < sz)
    ∧ (sz ≤ MAX_FILE_SIZE → validateVideoFile fs p = .ok mime) := by
  constructor
  · by_cases h : MAX_FILE_SIZE < sz <;>
      simp [validateVideoFile, hex, hfmt, h]
  · intro hle
    have h : ¬ sz > MAX_FILE_SIZE := by omega
    simp [validateVideoFile, hex, hfmt, h]

/-- Witness for C8: the oversized sample mp4 fails with the too-large
error, the small one passes. -/
theorem claimC8_witness :
    validateVideoFile sampleFs "/videos/huge.mp4" = .error .tooLarge
    ∧ validateVideoFile sampleFs "/videos/clip.mp4" = .ok "video/mp4" := by
  have h1 := claimC8_size_ceiling sampleFs "/videos/huge.mp4"
    (200 * 1024 * 1024) "video/mp4" rfl rfl
  have h2 := claimC8_size_ceiling sampleFs "/videos/clip.mp4" 1024 "video/mp4"
    rfl rfl
  exact ⟨h1.1.mpr (by decide), h2.2 (by decide)⟩

/-! Claim C4. -/

/-- Every non-thrown return of the remote server's `analyzeVideo` is either
a failure carrying only an error message or a success carrying only a
non-empty result list. -/
theorem RemoteServer.analyzeVideoRemote_ok_shape (googleApiKey : Option String)
    (fs : FS) (provider : Provider) (p : String) (ap : Option String)
    (r : AnalysisResult)
    (h : RemoteServer.analyzeVideo googleApiKey fs provider p ap = .ok r) :
    (∃ msg, r = ⟨false, none, some msg⟩)
    ∨ (∃ rs, rs ≠ [] ∧ r = ⟨true, some rs, none⟩) := by
  unfold RemoteServer.analyzeVideo RemoteServer.analyzeVideoTr at h
  by_cases hkey : jsTruthy googleApiKey
  · rcases hv : validateVideoFile fs p with e | mime
    · simp [hkey, hv] at h
      exact Or.inl ⟨vErrorMessage e, h.symm⟩
    · rcases hrun : runPromptsTr provider (selectPrompts ap) with ⟨calls, out⟩
      rcases out with e | rs
      · simp [hkey, hv, hrun] at h
        exact Or.inl ⟨e, h.symm⟩
      · simp [hkey, hv, hrun] at h
        refine Or.inr ⟨rs, ?_, h.symm⟩
        have hlen := runPromptsTr_ok_length provider (selectPrompts ap) rs
          (by rw [hrun])
        have hpos : 0 < (selectPrompts ap).length :=
          List.length_pos.mpr (selectPrompts_ne_nil ap)
        intro hnil
        rw [hnil] at hlen
        simp at hlen
        omega
  · simp [hkey] at h

/-- Every non-thrown return of the protocol server's `analyzeVideo` is
either a failure carrying only an error message or a success carrying only
a non-empty result list. -/
theorem McpServer.analyzeVideoMcp_ok_shape (googleApiKey : Option String)
    (fs : FS) (provider : Provider) (p : String) (ap : Option String)
    (r : AnalysisResult)
    (h : McpServer.analyzeVideo googleApiKey fs provider p ap = .ok r) :
    (∃ msg, r = ⟨false, none, some msg⟩)
    ∨ (∃ rs, rs ≠ [] ∧ r = ⟨true, some rs, none⟩) := by
  unfold McpServer.analyzeVideo at h
  by_cases hkey : jsTruthy googleApiKey
  · rcases hfs : fs p with _ | sz
    · simp [hkey, hfs] at h
      exact Or.inl ⟨McpServer.enoentMessage p, h.symm⟩
    · rcases hrun : runPromptsTr provider (selectPrompts ap) with ⟨calls, out⟩
      rcases out with e | rs
      · simp [hkey, hfs, hrun] at h
        exact Or.inl ⟨e, h.symm⟩
      · simp [hkey, hfs, hrun] at h
        refine Or.inr ⟨rs, ?_, h.symm⟩
        have hlen := runPromptsTr_ok_length provider (selectPrompts ap) rs
          (by rw [hrun])
        have hpos : 0 < (selectPrompts ap).length :=
          List.length_pos.mpr (selectPrompts_ne_nil ap)
        intro hnil
        rw [hnil] at hlen
        simp at hlen
        omega
  · simp [hkey] at h

/-- C4: every value either server's `analyzeVideo` returns satisfies the
tagged-result invariant: on success the result list is present and
non-empty and the error field is absent; on failure the error field is
present and the result list is absent. -/
theorem claimC4_tagged_result (googleApiKey : Option String) (fs : FS)
    (provider : Provider) (p : String) (ap : Option String) (r : AnalysisResult)
    (h : RemoteServer.analyzeVideo googleApiKey fs provider p ap = .ok r
         ∨ McpServer.analyzeVideo googleApiKey fs provider p ap = .ok r) :
    (r.success = true → r.error = none ∧ ∃ rs, r.results = some rs ∧ rs ≠ [])
    ∧ (r.success = false → r.results = none ∧ ∃ e, r.error = some e) := by
  have hshape : (∃ msg, r = ⟨false, none, some msg⟩)
      ∨ (∃ rs, rs ≠ [] ∧ r = ⟨true, some rs, none⟩) := by
    rcases h with h | h
    · exact RemoteServer.analyzeVideoRemote_ok_shape _ _ _ _ _ _ h
    · exact McpServer.analyzeVideoMcp_ok_shape _ _ _ _ _ _ h
  rcases hshape with ⟨msg, rfl⟩ | ⟨rs, hrs, rfl⟩
  · refine ⟨by simp, fun _ => ⟨rfl, msg, rfl⟩⟩
  · exact ⟨fun _ => ⟨rfl, rs, rfl, hrs⟩, by simp⟩

/-- Witness for C4 at a concrete successful analysis of the sample mp4
file with a custom prompt. -/
theorem claimC4_witness :
    ((⟨true, some [⟨"p", "analysis of p"⟩], none⟩ : AnalysisResult).success = true →
      (⟨true, some [⟨"p", "analysis of p"⟩], none⟩ : AnalysisResult).error = none
      ∧ ∃ rs, (⟨true, some [⟨"p", "analysis of p"⟩], none⟩ : AnalysisResult).results
          = some rs ∧ rs ≠ [])
    ∧ ((⟨true, some [⟨"p", "analysis of p"⟩], none⟩ : AnalysisResult).success = false →
      (⟨true, some [⟨"p", "analysis of p"⟩], none⟩ : AnalysisResult).results = none
      ∧ ∃ e, (⟨true, some [⟨"p", "analysis of p"⟩], none⟩ : AnalysisResult).error
          = some e) :=
  claimC4_tagged_result (some "key") sampleFs sampleProvider "/videos/clip.mp4"
    (some "p") ⟨true, some [⟨"p", "analysis of p"⟩], none⟩ (Or.inl rfl)

/-! Claim C5. -/

/-- C5: once the key and validation checks pass, a non-empty custom prompt
yields exactly one provider call with that prompt and a single-element
result list whose prompt field is the input; no custom prompt yields one
call per default prompt, in order, and five results in the same order, each
tagged with its prompt. -/
theorem claimC5_prompt_selection (googleApiKey : Option String) (fs : FS)
    (provider : Provider) (p : String) (mime : String) (texts : String → String)
    (hkey : jsTruthy googleApiKey = true)
    (hval : validateVideoFile fs p = .ok mime) :
    defaultPrompts.length = 5
    ∧ (∀ cp, cp ≠ "" → provider cp = .ok (texts cp) →
        RemoteServer.analyzeVideoTr googleApiKey fs provider p (some cp)
          = ([cp], .ok ⟨true, some [⟨cp, texts cp⟩], none⟩))
    ∧ ((∀ q ∈ defaultPrompts, provider q = .ok (texts q)) →
        RemoteServer.analyzeVideoTr googleApiKey fs provider p none
          = (defaultPrompts,
             .ok ⟨true, some (defaultPrompts.map fun q => ⟨q, texts q⟩), none⟩)) := by
  refine ⟨rfl, ?_, ?_⟩
  · intro cp hcp hpc
    have hsel : selectPrompts (some cp) = [cp] := by
      simp [selectPrompts, selectPromptsWith, jsTruthy, hcp]
    simp [RemoteServer.analyzeVideoTr, hkey, hval, hsel, runPromptsTr, hpc,
      Except.map]
  · intro hall
    have hrun := runPromptsTr_all_ok provider texts defaultPrompts hall
    have hsel : selectPrompts none = defaultPrompts := rfl
    simp [RemoteServer.analyzeVideoTr, hkey, hval, hsel, hrun]

/-- Witness for C5: the sample provider on the sample mp4 file, once with
the custom prompt `"p"` and once with no prompt. -/
theorem claimC5_witness :
    RemoteServer.analyzeVideoTr (some "key") sampleFs sampleProvider
      "/videos/clip.mp4" (some "p")
      = (["p"], .ok ⟨true, some [⟨"p", "analysis of p"⟩], none⟩)
    ∧ RemoteServer.analyzeVideoTr (some "key") sampleFs sampleProvider
      "/videos/clip.mp4" none
      = (defaultPrompts,
         .ok ⟨true, some (defaultPrompts.map fun q => ⟨q, "analysis of " ++ q⟩),
           none⟩) := by
  have h := claimC5_prompt_selection (some "key") sampleFs sampleProvider
    "/videos/clip.mp4" "video/mp4" (fun q => "analysis of " ++ q) rfl rfl
  exact ⟨h.2.1 "p" (by decide) rfl, h.2.2 (fun q _ => rfl)⟩

/-! Claim C6. -/

/-- C6: when the provider call for prompt `pk` throws after every earlier
prompt succeeded, the loop issues no call for the remaining prompts
(the call trace is exactly the earlier prompts followed by `pk`), and the
returned value is `success = false` with the thrown message as its error
(non-empty whenever the thrown message is) and no results at all, not even
for the prompts before `pk`. -/
theorem claimC6_short_circuit (googleApiKey : Option String) (fs : FS)
    (provider : Provider) (p : String) (mime : String) (front : List String)
    (pk : String) (rest : List String) (ap : Option String) (e : String)
    (hkey : jsTruthy googleApiKey = true)
    (hval : validateVideoFile fs p = .ok mime)
    (hsel : selectPrompts ap = front ++ pk :: rest)
    (hfront : ∀ q ∈ front, ∃ t, provider q = .ok t)
    (hfail : provider pk = .error e) (he : e ≠ "") :
    RemoteServer.analyzeVideoTr googleApiKey fs provider p ap
      = (front ++ [pk], .ok ⟨false, none, some e⟩)
    ∧ some e ≠ some "" := by
  have hrun := runPromptsTr_short_circuit provider front pk rest e hfront hfail
  refine ⟨?_, by simpa using he⟩
  simp [RemoteServer.analyzeVideoTr, hkey, hval, hsel, hrun]

/-- Witness for C6: a provider that throws on the third default prompt —
only the first three prompts are sent and the result is the tagged failure
with the thrown message. -/
theorem claimC6_witness :
    RemoteServer.analyzeVideoTr (some "key") sampleFs failingProvider
      "/videos/clip.mp4" none
      = (defaultPrompts.take 3, .ok ⟨false, none, some "quota exceeded"⟩) := by
  have h := claimC6_short_circuit (some "key") sampleFs failingProvider
    "/videos/clip.mp4" "video/mp4" (defaultPrompts.take 2)
    "Are there any areas where the video could be improved?"
    (defaultPrompts.drop 3) none "quota exceeded" rfl rfl rfl
    (by
      intro q hq
      simp [defaultPrompts] at hq
      rcases hq with rfl | rfl <;> exact ⟨_, rfl⟩)
    rfl (by decide)
  rw [h.1]
  rfl

/-! Claim C2. -/

/-- A non-empty string is truthy. -/
theorem jsTruthy_some_ne {k : String} (hk : k ≠ "") : jsTruthy (some k) = true := by
  simp [jsTruthy, hk]

/-- The empty string is falsy. -/
theorem jsTruthy_some_empty : jsTruthy (some "") = false := rfl

/-- An absent string is falsy. -/
theorem jsTruthy_none : jsTruthy none = false := rfl

/-- The `authenticate` middleware grants access exactly when authentication
is disabled, or no API key is configured (the permissive fallback), or the
supplied header-or-query key matches the configured one, or a non-empty
bearer token verifies. -/
theorem RemoteServer.authenticate_true_iff (cfg : AuthConfig)
    (verify : String → Bool) (r : HttpAuthRequest) :
    RemoteServer.authenticate cfg verify r = true
      ↔ (cfg.enableAuth = false
         ∨ jsTruthy cfg.apiKey = false
         ∨ jsOr r.headerApiKey r.queryApiKey = cfg.apiKey
         ∨ ∃ t, r.bearerToken = some t ∧ t ≠ "" ∧ verify t = true) := by
  unfold RemoteServer.authenticate
  by_cases he : cfg.enableAuth = false
  · simp [he]
  · by_cases htr : jsTruthy cfg.apiKey
    · by_cases hmatch : jsOr r.headerApiKey r.queryApiKey = cfg.apiKey
      · simp [he, htr, hmatch]
      · rcases ht : r.bearerToken with _ | t
        · simp [he, htr, hmatch, ht]
        · by_cases hte : t = ""
          · subst hte
            simp [he, htr, hmatch, ht, jsTruthy]
          · by_cases hv : verify t
            · simp [he, htr, hmatch, ht, hte, hv, jsTruthy]
            · simp [he, htr, hmatch, ht, hte, hv, jsTruthy]
    · rcases ht : r.bearerToken with _ | t
      · simp [he, htr, ht]
      · simp [he, htr, ht]

/-- C2 as stated is false: the tool-listing routes `POST /api/mcp/tools`
and `POST /mcp` run the `authenticate` middleware, so with authentication
enabled and an API key configured, a request with invalid credentials and
no valid token is rejected with the 401 body instead of the tool list. -/
theorem claimC2_counterexample :
    RemoteServer.listToolsEndpoint ⟨true, some "sek"⟩ (fun _ => false)
      ⟨some "wrong-key", none, none⟩ = .error "Authentication required" := rfl

/-- C2 amended: tool listing on the remote server's HTTP endpoints is gated
by the same `authenticate` middleware as every other operation; it returns
the tool list exactly when authentication is disabled, or no API key is
configured (permissive fallback), or the correct key is supplied (header
or query), or a valid non-empty bearer token is supplied — and is rejected
as unauthenticated otherwise. -/
theorem claimC2_amended (cfg : AuthConfig) (verify : String → Bool)
    (r : HttpAuthRequest) :
    RemoteServer.listToolsEndpoint cfg verify r = .ok RemoteServer.toolSpecs
      ↔ (cfg.enableAuth = false
         ∨ jsTruthy cfg.apiKey = false
         ∨ jsOr r.headerApiKey r.queryApiKey = cfg.apiKey
         ∨ ∃ t, r.bearerToken = some t ∧ t ≠ "" ∧ verify t = true) := by
  rw [← RemoteServer.authenticate_true_iff cfg verify r]
  unfold RemoteServer.listToolsEndpoint
  by_cases h : RemoteServer.authenticate cfg verify r <;> simp [h]

/-! Claim C7. -/

/-- C7: with authentication enabled and an API key configured, the correct
key (header or query, or the WebSocket query parameter) is granted; a wrong
or absent key with no valid token is rejected; and a valid non-empty signed
token is granted even without the key — for both the HTTP middleware and
the WebSocket connection check. -/
theorem claimC7_auth_policy (cfg : AuthConfig) (verify : String → Bool)
    (k : String) (henable : cfg.enableAuth = true) (hkey : cfg.apiKey = some k)
    (hk : k ≠ "") :
    (∀ r : HttpAuthRequest, jsOr r.headerApiKey r.queryApiKey = some k →
        RemoteServer.authenticate cfg verify r = true)
    ∧ (∀ r : HttpAuthRequest, jsOr r.headerApiKey r.queryApiKey ≠ some k →
        (∀ t, r.bearerToken = some t → t = "" ∨ verify t = false) →
        RemoteServer.authenticate cfg verify r = false)
    ∧ (∀ r : HttpAuthRequest, ∀ t, r.bearerToken = some t → t ≠ "" →
        verify t = true → RemoteServer.authenticate cfg verify r = true)
    ∧ (∀ tokenParam, RemoteServer.wsAuthenticate cfg verify (some k) tokenParam
        = true)
    ∧ (∀ apiKeyParam tokenParam, apiKeyParam ≠ some k →
        (∀ t, tokenParam = some t → t = "" ∨ verify t = false) →
        RemoteServer.wsAuthenticate cfg verify apiKeyParam tokenParam = false)
    ∧ (∀ apiKeyParam t, t ≠ "" → verify t = true →
        RemoteServer.wsAuthenticate cfg verify apiKeyParam (some t) = true) := by
  have htr : jsTruthy cfg.apiKey = true := by rw [hkey]; exact jsTruthy_some_ne hk
  have hen : ¬ cfg.enableAuth = false := by simp [henable]
  refine ⟨?_, ?_, ?_, ?_, ?_, ?_⟩
  · intro r hr
    simp [RemoteServer.authenticate, hen, htr, hkey, hr, jsTruthy_some_ne hk]
  · intro r hr htok
    have hm : ¬ jsOr r.headerApiKey r.queryApiKey = cfg.apiKey := by
      rw [hkey]; exact hr
    rcases ht : r.bearerToken with _ | t
    · simp [RemoteServer.authenticate, hen, htr, hm, ht]
    · rcases htok t ht with hte | hv
      · subst hte
        simp [RemoteServer.authenticate, hen, htr, hm, ht, jsTruthy_some_empty]
      · simp [RemoteServer.authenticate, hen, htr, hm, ht, hv]
  · intro r t ht hte hv
    by_cases hr : jsOr r.headerApiKey r.queryApiKey = cfg.apiKey
    · simp [RemoteServer.authenticate, hen, htr, hr, hkey, jsTruthy_some_ne hk]
    · simp [RemoteServer.authenticate, hen, htr, hr, ht, hv,
        jsTruthy_some_ne hte]
  · intro tokenParam
    simp [RemoteServer.wsAuthenticate, hen, htr, hkey, jsTruthy_some_ne hk]
  · intro apiKeyParam tokenParam hne htok
    have hm : ¬ apiKeyParam = cfg.apiKey := by rw [hkey]; exact hne
    rcases ht : tokenParam with _ | t
    · simp [RemoteServer.wsAuthenticate, hen, htr, hm, jsTruthy_none]
    · rcases htok t ht with hte | hv
      · subst hte
        simp [RemoteServer.wsAuthenticate, hen, htr, hm, jsTruthy_some_empty]
      · by_cases hte : t = ""
        · subst hte
          simp [RemoteServer.wsAuthenticate, hen, htr, hm, jsTruthy_some_empty]
        · simp [RemoteServer.wsAuthenticate, hen, htr, hm, hv,
            jsTruthy_some_ne hte]
  · intro apiKeyParam t hte hv
    by_cases hm : apiKeyParam = cfg.apiKey
    · simp [RemoteServer.wsAuthenticate, hen, htr, hm, jsTruthy_some_ne hk, hkey]
    · simp [RemoteServer.wsAuthenticate, hen, htr, hm, hv, jsTruthy_some_ne hte]

/-- Witness for C7 at a concrete configuration: correct key granted, wrong
key rejected, valid token granted without the key, on both checks. -/
theorem claimC7_witness :
    RemoteServer.authenticate ⟨true, some "sek"⟩ (fun t => t == "tok")
      ⟨some "sek", none, none⟩ = true
    ∧ RemoteServer.authenticate ⟨true, some "sek"⟩ (fun t => t == "tok")
      ⟨some "bad", none, none⟩ = false
    ∧ RemoteServer.authenticate ⟨true, some "sek"⟩ (fun t => t == "tok")
      ⟨none, none, some "tok"⟩ = true
    ∧ RemoteServer.wsAuthenticate ⟨true, some "sek"⟩ (fun t => t == "tok")
      none (some "tok") = true := by
  have h := claimC7_auth_policy ⟨true, some "sek"⟩ (fun t => t == "tok") "sek"
    rfl rfl (by decide)
  exact ⟨h.1 _ (by decide),
    h.2.1 _ (by decide) (fun t ht => absurd ht (by simp)),
    h.2.2.1 _ "tok" rfl (by decide) (by decide),
    h.2.2.2.2.2 none "tok" (by decide) (by decide)⟩

/-! Claim C9. -/

/-- C9: the WebSocket message handler sends exactly one outbound message
for every inbound message — a parse failure, unknown type, unknown tool,
tool failure, tool success, listing and ping each produce one reply, never
zero and never two — and the reply to a `call_tool` request carries that
request's id. -/
theorem claimC9_ws_single_reply (googleApiKey : Option String) (fs : FS)
    (provider : Provider) (dl : DownloadOutcome) (uuid : String) (now : Nat) :
    (∀ m : WsIn,
      (RemoteServer.handleWsMessage googleApiKey fs provider dl uuid now m).length
        = 1)
    ∧ (∀ id tool fp vu ap, ∃ out,
        RemoteServer.handleWsMessage googleApiKey fs provider dl uuid now
          (.callTool id tool fp vu ap) = [out]
        ∧ wsOutId out = id) := by
  have hcall : ∀ id tool fp vu ap, ∃ out,
      RemoteServer.handleWsMessage googleApiKey fs provider dl uuid now
        (.callTool id tool fp vu ap) = [out] ∧ wsOutId out = id := by
    intro id tool fp vu ap
    by_cases h1 : tool = "analyze_video_file"
    · rcases h : RemoteServer.analyzeVideo googleApiKey fs provider
        (fp.getD "undefined") ap with e | r
      · exact ⟨.errorMsg id e, by simp [RemoteServer.handleWsMessage, h1, h], rfl⟩
      · exact ⟨.toolResult id r, by simp [RemoteServer.handleWsMessage, h1, h], rfl⟩
    · by_cases h2 : tool = "analyze_video_url"
      · rcases h : (RemoteServer.analyzeUrlWithCleanup googleApiKey fs provider
          dl uuid ap).1 with e | r
        · exact ⟨.errorMsg id e,
            by simp [RemoteServer.handleWsMessage, h1, h2, h], rfl⟩
        · exact ⟨.toolResult id r,
            by simp [RemoteServer.handleWsMessage, h1, h2, h], rfl⟩
      · exact ⟨.errorMsg id ("Unknown tool: " ++ tool),
          by simp [RemoteServer.handleWsMessage, h1, h2], rfl⟩
  refine ⟨?_, hcall⟩
  intro m
  rcases m with pe | _ | ⟨id, tool, fp, vu, ap⟩ | _ | t
  · rfl
  · rfl
  · obtain ⟨out, heq, _⟩ := hcall id tool fp vu ap
    rw [heq]
    rfl
  · rfl
  · rfl
